import Mathlib

/-!
Verification of the resilient acquisition engine.

Shallow embedding of the core algorithmic slice of the repository:
the resilient call gateway (`src/analytics/provider_net.py`), the
cascading acquisition pipeline and peer-relative scoring engine
(`src/scripts/run_uber_update.py`), and the Monte Carlo valuation sampler
(`src/scripts/build_montecarlo.py`).  Machine floats are modelled as
rationals, fallible code returns `Option`/`Except`, and the network and
the clock are passed in explicitly so that every definition is executable.
-/

namespace ProviderNet

/-- Embeds `_ProviderState` (provider_net.py lines 31-35): per-provider
failure counter, circuit-open deadline (epoch seconds) and last error. -/
structure ProviderState where
  failures : Nat
  open_until_ts : ℚ
  last_error : String
deriving Repr, DecidableEq

/-- Fresh state, as `_ProviderState()` defaults it. -/
def initState : ProviderState := ⟨0, 0, ""⟩

/-- Outcome of one `requests.get` call: a response carrying an HTTP status
code, or a raised exception (request timeout / transport failure). -/
inductive NetOutcome where
  | resp (status : Nat)
  | exc (msg : String)
deriving Repr, DecidableEq

/-- Embeds the explicit retry-status tuple of `request_with_resilience`
(line 115): 429, 500, 502, 503, 504. -/
def retryableStatus (c : Nat) : Bool :=
  c = 429 || c = 500 || c = 502 || c = 503 || c = 504

/-- Embeds the semantics of `requests.Response.raise_for_status`, which
raises `HTTPError` exactly for status codes in [400, 600). -/
def raisesForStatus (c : Nat) : Bool :=
  decide (400 ≤ c) && decide (c < 600)

/-- Stand-in for the error text of the `HTTPError` that `raise_for_status`
raises (the `requests` library formats it; only its presence matters). -/
def raiseForStatusMsg (c : Nat) : String := toString c ++ " Error"

/-- Embeds `_record_failure` (lines 79-85): increment the failure counter,
store the error truncated to 500 characters, and open the circuit for
`cd` seconds from `now` once the counter reaches the threshold `th`
(`_CIRCUIT_FAILURE_THRESHOLD`, default 4; `_CIRCUIT_OPEN_SEC`, default 45). -/
def record_failure (th : Nat) (cd now : ℚ) (err : String) (s : ProviderState) :
    ProviderState :=
  let f := s.failures + 1
  { failures := f
    last_error := err.take 500
    open_until_ts := if th ≤ f then now + cd else s.open_until_ts }

/-- Embeds `_record_success` (lines 71-76): reset the counter, clear the
circuit deadline and the last error. -/
def record_success (_s : ProviderState) : ProviderState := ⟨0, 0, ""⟩

/-- Embeds `_circuit_open` (lines 88-91): whether the circuit is open at
`now`, together with the remaining cooldown. -/
def circuit_open (now : ℚ) (s : ProviderState) : Bool × ℚ :=
  (decide (now < s.open_until_ts), max 0 (s.open_until_ts - now))

/-- Result of a gateway-mediated call: the returned response status, a
circuit-open fast failure carrying the retry-after seconds, or the final
`RuntimeError` after the retry budget is exhausted. -/
inductive CallResult where
  | success (status : Nat)
  | circuitOpen (retry_after : ℚ)
  | failed
deriving Repr, DecidableEq

/-- Embeds the attempt loop of `request_with_resilience` (lines 112-129)
over the prerecorded outcomes of successive `requests.get` calls.  Returns
`(some status)` when a response was returned to the caller (`none` when
every attempt failed), the final provider state, and the number of network
attempts performed.  Retry-listed statuses record a failure and continue;
any other error status raises inside the `try` via `raise_for_status` and
is caught by the same `except` branch, which also records a failure and
continues; a non-error response records a success and returns. -/
def run_attempts (th : Nat) (cd now : ℚ) :
    List NetOutcome → ProviderState → Option Nat × ProviderState × Nat
  | [], s => (none, s, 0)
  | o :: rest, s =>
    match o with
    | .resp c =>
      if retryableStatus c then
        let s1 := record_failure th cd now ("HTTP " ++ toString c) s
        let res := run_attempts th cd now rest s1
        (res.1, res.2.1, res.2.2 + 1)
      else if raisesForStatus c then
        let s1 := record_failure th cd now (raiseForStatusMsg c) s
        let res := run_attempts th cd now rest s1
        (res.1, res.2.1, res.2.2 + 1)
      else
        (some c, record_success s, 1)
    | .exc m =>
      let s1 := record_failure th cd now m s
      let res := run_attempts th cd now rest s1
      (res.1, res.2.1, res.2.2 + 1)

/-- Embeds `request_with_resilience` (lines 94-131) with effects made
explicit: `outcomes i` is what the i-th `requests.get` call would produce,
`retries` is the resolved retry budget (`_MAX_RETRIES` default 3), and the
result is the call outcome, the final provider state, and the number of
network attempts performed.  The circuit is checked once, before any
attempt; backoff sleeps only delay and are not modelled. -/
def request_with_resilience (th : Nat) (cd now : ℚ) (outcomes : Nat → NetOutcome)
    (retries : Nat) (s : ProviderState) : CallResult × ProviderState × Nat :=
  if now < s.open_until_ts then
    (.circuitOpen (max 0 (s.open_until_ts - now)), s, 0)
  else
    match run_attempts th cd now ((List.range (retries + 1)).map outcomes) s with
    | (some c, s1, k) => (.success c, s1, k)
    | (none, s1, k) => (.failed, s1, k)

/-- Whether an attempt outcome takes one of the failure branches of the
loop body (and is therefore followed by another attempt while the retry
budget lasts). -/
def attemptFails : NetOutcome → Bool
  | .resp c => retryableStatus c || raisesForStatus c
  | .exc _ => true

lemma run_attempts_cons_fail (th : Nat) (cd now : ℚ) (o : NetOutcome)
    (rest : List NetOutcome) (s : ProviderState) (h : attemptFails o = true) :
    ∃ e : String,
      run_attempts th cd now (o :: rest) s =
        (let res := run_attempts th cd now rest (record_failure th cd now e s)
         (res.1, res.2.1, res.2.2 + 1)) := by
  cases o with
  | resp c =>
    simp only [attemptFails, Bool.or_eq_true] at h
    by_cases hr : retryableStatus c
    · exact ⟨"HTTP " ++ toString c, by simp [run_attempts, hr]⟩
    · have hrs : raisesForStatus c = true := h.resolve_left hr
      exact ⟨raiseForStatusMsg c, by simp [run_attempts, hr, hrs]⟩
  | exc m => exact ⟨m, by simp [run_attempts]⟩

lemma run_attempts_pos (th : Nat) (cd now : ℚ) (o : NetOutcome)
    (rest : List NetOutcome) (s : ProviderState) :
    1 ≤ (run_attempts th cd now (o :: rest) s).2.2 := by
  cases o with
  | resp c =>
    by_cases hr : retryableStatus c
    · simp [run_attempts, hr]
    · by_cases hrs : raisesForStatus c
      · simp [run_attempts, hr, hrs]
      · simp [run_attempts, hr, hrs]
  | exc m => simp [run_attempts]

lemma record_failure_failures (th : Nat) (cd now : ℚ) (e : String)
    (s : ProviderState) :
    (record_failure th cd now e s).failures = s.failures + 1 := rfl

lemma run_attempts_all_fail (th : Nat) (cd now : ℚ) (l : List NetOutcome)
    (s : ProviderState) (h : ∀ o ∈ l, attemptFails o = true) :
    (run_attempts th cd now l s).1 = none ∧
    (run_attempts th cd now l s).2.2 = l.length ∧
    (run_attempts th cd now l s).2.1.failures = s.failures + l.length ∧
    (run_attempts th cd now l s).2.1.open_until_ts =
      (if th ≤ s.failures + l.length ∧ 0 < l.length then now + cd
       else s.open_until_ts) := by
  induction l generalizing s with
  | nil => simp [run_attempts]
  | cons o rest ih =>
    obtain ⟨e, he⟩ :=
      run_attempts_cons_fail th cd now o rest s (h o (by simp))
    have hrest : ∀ x ∈ rest, attemptFails x = true := fun x hx => h x (by simp [hx])
    set s1 := record_failure th cd now e s with hs1
    have ihr := ih s1 hrest
    have hf : s1.failures = s.failures + 1 := rfl
    have hopen : s1.open_until_ts =
        (if th ≤ s.failures + 1 then now + cd else s.open_until_ts) := rfl
    rw [he]
    refine ⟨ihr.1, ?_, ?_, ?_⟩
    · simp [ihr.2.1]
    · simp [ihr.2.2.1, hf]; omega
    · simp only [List.length_cons]
      rw [ihr.2.2.2, hf, hopen]
      split_ifs <;> first | rfl | omega

lemma run_attempts_head_success (th : Nat) (cd now : ℚ) (c : Nat)
    (rest : List NetOutcome) (s : ProviderState)
    (h : attemptFails (.resp c) = false) :
    run_attempts th cd now (.resp c :: rest) s = (some c, record_success s, 1) := by
  simp only [attemptFails, Bool.or_eq_false_iff] at h
  simp [run_attempts, h.1, h.2]

lemma run_attempts_success_state (th : Nat) (cd now : ℚ) (l : List NetOutcome)
    (s : ProviderState) (c : Nat) (h : (run_attempts th cd now l s).1 = some c) :
    (run_attempts th cd now l s).2.1 = initState := by
  induction l generalizing s with
  | nil => simp [run_attempts] at h
  | cons o rest ih =>
    by_cases hf : attemptFails o = true
    · obtain ⟨e, he⟩ := run_attempts_cons_fail th cd now o rest s hf
      rw [he] at h ⊢
      exact ih _ h
    · cases o with
      | resp c2 =>
        rw [run_attempts_head_success th cd now c2 rest s
          (by simpa using hf)] at h ⊢
        rfl
      | exc m => simp [attemptFails] at hf

/-- Record returned by `provider_circuit_status` (lines 53-62). -/
structure CircuitStatus where
  provider : String
  isOpen : Bool
  open_until_epoch : ℚ
  consecutive_failures : Nat
  last_error : Option String
deriving Repr, DecidableEq

/-- The process-wide `_STATE` map, keyed by provider name, in insertion
order. -/
abbrev StateMap := List (String × ProviderState)

/-- Embeds `_state` (lines 46-50): look the provider up, lazily inserting a
fresh default record when absent; returns the state together with the
(possibly extended) map. -/
def state_lookup (m : StateMap) (p : String) : ProviderState × StateMap :=
  match m.find? (fun e => e.1 == p) with
  | some e => (e.2, m)
  | none => (initState, m ++ [(p, initState)])

/-- Embeds `provider_circuit_status` (lines 53-62): read the status record
at time `now`; the returned map is `_STATE` after the call (`_state` may
have extended it).  An empty `last_error` is reported as null
(`s.last_error or None`). -/
def provider_circuit_status (m : StateMap) (p : String) (now : ℚ) :
    CircuitStatus × StateMap :=
  let sm := state_lookup m p
  (⟨p, decide (now < sm.1.open_until_ts), sm.1.open_until_ts, sm.1.failures,
      if sm.1.last_error = "" then none else some sm.1.last_error⟩,
   sm.2)

lemma request_unfold (th : Nat) (cd now : ℚ) (outcomes : Nat → NetOutcome)
    (retries : Nat) (s : ProviderState) (hclosed : ¬ now < s.open_until_ts) :
    request_with_resilience th cd now outcomes retries s =
      ((match (run_attempts th cd now ((List.range (retries + 1)).map outcomes) s).1 with
        | some c => .success c
        | none => .failed),
       (run_attempts th cd now ((List.range (retries + 1)).map outcomes) s).2.1,
       (run_attempts th cd now ((List.range (retries + 1)).map outcomes) s).2.2) := by
  unfold request_with_resilience
  rw [if_neg hclosed]
  rcases h : run_attempts th cd now ((List.range (retries + 1)).map outcomes) s
    with ⟨ro, s1, k⟩
  cases ro <;> rfl

lemma request_result (th : Nat) (cd now : ℚ) (outcomes : Nat → NetOutcome)
    (retries : Nat) (s : ProviderState) (hclosed : ¬ now < s.open_until_ts) :
    (request_with_resilience th cd now outcomes retries s).1 =
      (match (run_attempts th cd now ((List.range (retries + 1)).map outcomes) s).1 with
       | some c => CallResult.success c
       | none => CallResult.failed) := by
  rw [request_unfold th cd now outcomes retries s hclosed]

lemma request_state (th : Nat) (cd now : ℚ) (outcomes : Nat → NetOutcome)
    (retries : Nat) (s : ProviderState) (hclosed : ¬ now < s.open_until_ts) :
    (request_with_resilience th cd now outcomes retries s).2.1 =
      (run_attempts th cd now ((List.range (retries + 1)).map outcomes) s).2.1 := by
  rw [request_unfold th cd now outcomes retries s hclosed]

lemma request_count (th : Nat) (cd now : ℚ) (outcomes : Nat → NetOutcome)
    (retries : Nat) (s : ProviderState) (hclosed : ¬ now < s.open_until_ts) :
    (request_with_resilience th cd now outcomes retries s).2.2 =
      (run_attempts th cd now ((List.range (retries + 1)).map outcomes) s).2.2 := by
  rw [request_unfold th cd now outcomes retries s hclosed]

/-- C3: while the provider circuit-open deadline lies in the future, a
gateway call fails immediately with a circuit-open error carrying the
remaining retry-after time, performs no network attempt, and leaves the
provider state untouched (request_with_resilience lines 104-106,
_circuit_open lines 88-91). -/
theorem circuit_open_fast_fail (th : Nat) (cd now : ℚ)
    (outcomes : Nat → NetOutcome) (retries : Nat) (s : ProviderState)
    (h : now < s.open_until_ts) :
    request_with_resilience th cd now outcomes retries s =
      (.circuitOpen (s.open_until_ts - now), s, 0) := by
  unfold request_with_resilience
  rw [if_pos h, max_eq_right (by linarith)]

/-- Witness for C3 at one concrete open circuit: deadline 20, clock 10. -/
theorem circuit_open_fast_fail_witness :
    request_with_resilience 4 45 10 (fun _ => .exc "timed out") 3 ⟨2, 20, "boom"⟩ =
      (.circuitOpen 10, ⟨2, 20, "boom"⟩, 0) := by
  have h := circuit_open_fast_fail 4 45 10 (fun _ => .exc "timed out") 3
    ⟨2, 20, "boom"⟩ (by norm_num)
  rw [h, show (20 : ℚ) - 10 = 10 from by norm_num]

/-- C2 counterexample: HTTP 404 is outside the retry-status list, so by the
claim no further attempt may follow it; yet with a retry budget of 1 and
every attempt answering 404 the gateway performs 2 network attempts,
because `raise_for_status` raises inside the `try` and the blanket
`except` branch records the failure and continues the loop. -/
theorem retry_terminal_status_counterexample :
    (request_with_resilience 4 45 0 (fun _ => .resp 404) 1 initState).2.2 = 2 ∧
    ¬ (request_with_resilience 4 45 0 (fun _ => .resp 404) 1 initState).2.2 ≤ 1 := by
  decide

/-- C2 amended: with the circuit closed, every failed attempt — timeout,
transport failure, or any HTTP error status whether retry-listed or not —
is followed by another attempt while the retry budget lasts; only a
non-error HTTP response stops the loop, as a success. -/
theorem retry_on_any_failure (th : Nat) (cd now : ℚ)
    (outcomes : Nat → NetOutcome) (retries : Nat) (s : ProviderState)
    (hclosed : ¬ now < s.open_until_ts) :
    (attemptFails (outcomes 0) = true → 1 ≤ retries →
      2 ≤ (request_with_resilience th cd now outcomes retries s).2.2) ∧
    (∀ c, outcomes 0 = .resp c → attemptFails (.resp c) = false →
      request_with_resilience th cd now outcomes retries s =
        (.success c, record_success s, 1)) := by
  constructor
  · intro hfail hr
    rw [request_count th cd now outcomes retries s hclosed]
    rw [List.range_succ_eq_map]
    simp only [List.map_cons]
    obtain ⟨r2, rest, hrest⟩ :
        ∃ r2 rest, ((List.range retries).map Nat.succ).map outcomes = r2 :: rest := by
      cases hl : ((List.range retries).map Nat.succ).map outcomes with
      | nil =>
        exfalso
        have := congrArg List.length hl
        simp at this
        omega
      | cons a l => exact ⟨a, l, rfl⟩
    rw [hrest]
    obtain ⟨e, he⟩ := run_attempts_cons_fail th cd now (outcomes 0) (r2 :: rest) s hfail
    rw [he]
    have hp := run_attempts_pos th cd now r2 rest (record_failure th cd now e s)
    show 2 ≤ (run_attempts th cd now (r2 :: rest) (record_failure th cd now e s)).2.2 + 1
    omega
  · intro c hc hff
    rw [request_unfold th cd now outcomes retries s hclosed]
    rw [List.range_succ_eq_map]
    simp only [List.map_cons]
    rw [hc, run_attempts_head_success th cd now c _ s hff]

/-- Witness for the amended C2: a 403 (not retry-listed) first attempt is
retried; a 200 first attempt returns at once with the success payload. -/
theorem retry_on_any_failure_witness :
    2 ≤ (request_with_resilience 4 45 0 (fun _ => .resp 403) 1 initState).2.2 ∧
    request_with_resilience 4 45 0 (fun _ => .resp 200) 1 initState =
      (.success 200, record_success initState, 1) :=
  ⟨(retry_on_any_failure 4 45 0 (fun _ => .resp 403) 1 initState (by decide)).1
      (by decide) (by decide),
   (retry_on_any_failure 4 45 0 (fun _ => .resp 200) 1 initState (by decide)).2
      200 rfl (by decide)⟩

/-- C4 counterexample: with the default budget (3 retries) and threshold 4,
one call whose 4 attempts all time out increments the failure counter by 4
— once per attempt, not once per exhausted call — and already opens the
circuit within that single call. -/
theorem failure_increment_counterexample :
    (request_with_resilience 4 45 0 (fun _ => .exc "timed out") 3 initState).2.1.failures = 4 ∧
    (request_with_resilience 4 45 0 (fun _ => .exc "timed out") 3 initState).2.1.failures ≠ 1 ∧
    (request_with_resilience 4 45 0 (fun _ => .exc "timed out") 3 initState).2.1.open_until_ts = 45 := by
  have hrun := run_attempts_all_fail 4 45 0
    ((List.range (3 + 1)).map (fun _ => NetOutcome.exc "timed out")) initState
    (by decide)
  have hstate := request_state 4 45 0 (fun _ => NetOutcome.exc "timed out") 3 initState
    (by decide)
  refine ⟨?_, ?_, ?_⟩
  · rw [hstate, hrun.2.2.1]
    decide
  · rw [hstate, hrun.2.2.1]
    decide
  · rw [hstate, hrun.2.2.2]
    norm_num [initState]

/-- C4 amended: the failure counter is incremented once per failed attempt,
so a call that exhausts its budget adds `retries + 1` to it; the circuit
deadline becomes `now + cooldown` exactly when the counter reaches the
threshold; and a successful call resets the counter to 0 and clears the
circuit deadline and last error. -/
theorem failure_counting (th : Nat) (cd now : ℚ) (outcomes : Nat → NetOutcome)
    (retries : Nat) (s : ProviderState) (hclosed : ¬ now < s.open_until_ts) :
    ((∀ o ∈ (List.range (retries + 1)).map outcomes, attemptFails o = true) →
      (request_with_resilience th cd now outcomes retries s).1 = .failed ∧
      (request_with_resilience th cd now outcomes retries s).2.1.failures =
        s.failures + (retries + 1) ∧
      (request_with_resilience th cd now outcomes retries s).2.1.open_until_ts =
        (if th ≤ s.failures + (retries + 1) then now + cd else s.open_until_ts)) ∧
    (∀ c, (request_with_resilience th cd now outcomes retries s).1 = .success c →
      (request_with_resilience th cd now outcomes retries s).2.1 = initState) := by
  have hlen : ((List.range (retries + 1)).map outcomes).length = retries + 1 := by
    simp
  constructor
  · intro hall
    have hrun := run_attempts_all_fail th cd now
      ((List.range (retries + 1)).map outcomes) s hall
    rw [hlen] at hrun
    refine ⟨?_, ?_, ?_⟩
    · rw [request_result th cd now outcomes retries s hclosed, hrun.1]
    · rw [request_state th cd now outcomes retries s hclosed]
      exact hrun.2.2.1
    · rw [request_state th cd now outcomes retries s hclosed, hrun.2.2.2]
      split_ifs <;> first | rfl | omega
  · intro c hc
    rw [request_result th cd now outcomes retries s hclosed] at hc
    rw [request_state th cd now outcomes retries s hclosed]
    rcases hro : (run_attempts th cd now ((List.range (retries + 1)).map outcomes) s).1
      with _ | c2
    · rw [hro] at hc
      exact absurd hc (by simp)
    · exact run_attempts_success_state th cd now _ s c2 hro

/-- Witness for the amended C4: an all-timeout call on defaults opens the
circuit at 45, and a first-attempt success resets the state. -/
theorem failure_counting_witness :
    (request_with_resilience 4 45 0 (fun _ => .exc "timed out") 3 initState).2.1.open_until_ts = 45 ∧
    (request_with_resilience 4 45 0 (fun _ => .resp 200) 0 initState).2.1 = initState := by
  constructor
  · have h := (failure_counting 4 45 0 (fun _ => .exc "timed out") 3 initState
      (by decide)).1 (by decide)
    rw [h.2.2]
    norm_num
  · exact (failure_counting 4 45 0 (fun _ => .resp 200) 0 initState (by decide)).2
      200 (by decide)

/-- C5 counterexample: reading the status of a provider that has no entry
yet inserts a fresh default record into `_STATE` (via `_state`, lines
46-50) — the read mutates the provider-state map. -/
theorem status_mutates_map_counterexample :
    (provider_circuit_status [] "fmp" 0).2 ≠ ([] : StateMap) ∧
    (provider_circuit_status [] "fmp" 0).2 = [("fmp", initState)] := by
  decide

/-- C5 amended: for a provider already present in the map, the status read
returns the open flag, the open-until epoch, the consecutive-failure count
and the last error without changing the map or any state fields; for an
unseen provider its only effect is to lazily insert a fresh default
record. -/
theorem status_read_known_provider (m : StateMap) (p : String) (now : ℚ)
    (e : String × ProviderState) (h : m.find? (fun x => x.1 == p) = some e) :
    (provider_circuit_status m p now).2 = m ∧
    (provider_circuit_status m p now).1 =
      ⟨p, decide (now < e.2.open_until_ts), e.2.open_until_ts, e.2.failures,
        if e.2.last_error = "" then none else some e.2.last_error⟩ := by
  unfold provider_circuit_status state_lookup
  rw [h]
  exact ⟨rfl, rfl⟩

/-- Witness for the amended C5 at one concrete populated map. -/
theorem status_read_known_provider_witness :
    (provider_circuit_status [("fmp", ⟨2, 5, "HTTP 503"⟩)] "fmp" 9).2 =
      [("fmp", ⟨2, 5, "HTTP 503"⟩)] ∧
    (provider_circuit_status [("fmp", ⟨2, 5, "HTTP 503"⟩)] "fmp" 9).1 =
      ⟨"fmp", false, 5, 2, some "HTTP 503"⟩ := by
  have h := status_read_known_provider [("fmp", ⟨2, 5, "HTTP 503"⟩)] "fmp" 9
    ("fmp", ⟨2, 5, "HTTP 503"⟩) (by decide)
  exact ⟨h.1, h.2.trans (by decide)⟩

end ProviderNet

namespace Uber

/-- Embeds Python round (round-half-to-even) on a rational, as used by
`int(round(...))` in run_uber_update.py and build_montecarlo.py. -/
def pyRound (x : ℚ) : ℤ :=
  let f := ⌊x⌋
  let r := x - f
  if r < 1/2 then f
  else if 1/2 < r then f + 1
  else if 2 ∣ f then f else f + 1

/-- Embeds `_clamp` (run_uber_update.py lines 104-105):
`max(lo, min(hi, x))`. -/
def clamp (x lo hi : ℚ) : ℚ := max lo (min hi x)

/-- Embeds `pd.to_numeric(series, errors="coerce").dropna()`: the non-null
entries of a metric column, in order. -/
def dropna (series : List (Option ℚ)) : List ℚ := series.filterMap id

/-- Embeds `_rank_percentile` (run_uber_update.py lines 108-113):
`pct = (s <= value).mean() * 100.0`, flipped when lower is better, and
null when the focus value is missing or the non-null series is empty. -/
def rank_percentile (series : List (Option ℚ)) (value : Option ℚ)
    (higher_is_better : Bool) : Option ℚ :=
  let s := dropna series
  if s.length = 0 ∨ value = none then none
  else
    match value with
    | none => none
    | some v =>
      let pct : ℚ := ((s.filter (fun x => x ≤ v)).length : ℚ) / (s.length : ℚ) * 100
      if higher_is_better then some pct else some (100 - pct)

/-- C7: the percentile rank equals `100 * count(s <= v) / count(S)` over the
non-null peer series, metrics where lower is better are mapped to
`100 - rank`, and the result is null exactly when the focus value is
missing or the non-null series is empty. -/
theorem rank_percentile_spec (series : List (Option ℚ)) (value : Option ℚ)
    (hib : Bool) :
    (rank_percentile series value hib = none ↔
      value = none ∨ dropna series = []) ∧
    (∀ x : ℚ, value = some x → dropna series ≠ [] →
      rank_percentile series value hib =
        some (if hib
          then (((dropna series).filter (fun y => y ≤ x)).length : ℚ) /
            ((dropna series).length : ℚ) * 100
          else 100 - (((dropna series).filter (fun y => y ≤ x)).length : ℚ) /
            ((dropna series).length : ℚ) * 100)) := by
  constructor
  · unfold rank_percentile
    by_cases h : (dropna series).length = 0 ∨ value = none
    · rw [if_pos h]
      simp only [true_iff]
      rcases h with h | h
      · exact Or.inr (List.length_eq_zero.mp h)
      · exact Or.inl h
    · rw [if_neg h]
      push_neg at h
      rcases hv : value with _ | x
      · exact absurd hv h.2
      · have hne : ¬ dropna series = [] := fun hnil => h.1 (by rw [hnil]; rfl)
        cases hib <;> simp [hne]
  · intro x hx hne
    unfold rank_percentile
    rw [if_neg]
    · rw [hx]
      cases hib <;> simp
    · push_neg
      exact ⟨fun h => hne (List.length_eq_zero.mp h), by rw [hx]; simp⟩

/-- Witness for C7: a lower-is-better rank on a concrete series, and the
null case on an empty series, both obtained from the theorem. -/
theorem rank_percentile_spec_witness :
    rank_percentile [some 1, some 2, none] (some 2) false = some 0 ∧
    rank_percentile [] (some 2) false = none :=
  ⟨((rank_percentile_spec [some 1, some 2, none] (some 2) false).2 2 rfl
      (by decide)).trans (by norm_num [dropna, List.filterMap, List.filter]),
   (rank_percentile_spec [] (some 2) false).1.mpr (Or.inr rfl)⟩

/-- Embeds Python `str.upper` on the ASCII ticker symbols this pipeline
handles, written structurally so it evaluates in the kernel. -/
def py_upper (s : String) : String := String.mk (s.data.map Char.toUpper)

/-- Embeds a row of the comps snapshot (`build_comps_snapshot`, lines
246-263): identity, market fields, TTM fundamentals and derived ratios,
nullable fields as `Option`. -/
structure CompsRow where
  ticker : String
  price : Option ℚ
  market_cap : Option ℚ
  period_end : Option String
  revenue_ttm : Option ℚ
  revenue_ttm_yoy_pct : Option ℚ
  fcf_ttm : Option ℚ
  fcf_ttm_yoy_pct : Option ℚ
  fcf_margin_ttm_pct : Option ℚ
  cash : Option ℚ
  debt : Option ℚ
  net_debt : Option ℚ
  fcf_yield : Option ℚ
  net_debt_to_fcf_ttm : Option ℚ
deriving Repr, DecidableEq

/-- Embeds the latest TTM record of one ticker (`ttm.iloc[0]` of
`build_ttm_from_quarters`), as consumed by `build_comps_snapshot`. -/
structure TTMLatest where
  period_end : Option String
  revenue_ttm : Option ℚ
  revenue_ttm_yoy_pct : Option ℚ
  fcf_ttm : Option ℚ
  fcf_ttm_yoy_pct : Option ℚ
  fcf_margin_ttm_pct : Option ℚ
  cash : Option ℚ
  debt : Option ℚ
deriving Repr, DecidableEq

/-- Embeds one row of the quotes frame (`fetch_quotes` output): symbol,
price and market cap, the latter two nullable after `_safe_float`. -/
structure QuoteRow where
  symbol : String
  price : Option ℚ
  marketCap : Option ℚ
deriving Repr, DecidableEq

/-- Embeds the per-ticker row construction of `build_comps_snapshot`
(lines 213-263).  `quote_map` is a dict keyed by the uppercased symbol, so
a lookup returns the last matching quote row; derived fields guard their
denominators exactly as the source does. -/
def comps_row (quotes : List QuoteRow) (t : String) (latest : TTMLatest) : CompsRow :=
  let q := (quotes.filter (fun qr => py_upper qr.symbol == t)).getLast?
  let mcap := q.bind (·.marketCap)
  let price := q.bind (·.price)
  let net_debt : Option ℚ :=
    match latest.cash, latest.debt with
    | some c, some d => some (d - c)
    | _, _ => none
  let fcf_yield : Option ℚ :=
    match latest.fcf_ttm, mcap with
    | some f, some m => if 0 < m then some (f / m) else none
    | _, _ => none
  let nd_fcf : Option ℚ :=
    match net_debt, latest.fcf_ttm with
    | some nd, some f => if 0 < f then some (nd / f) else none
    | _, _ => none
  { ticker := t
    price := price
    market_cap := mcap
    period_end := latest.period_end
    revenue_ttm := latest.revenue_ttm
    revenue_ttm_yoy_pct := latest.revenue_ttm_yoy_pct
    fcf_ttm := latest.fcf_ttm
    fcf_ttm_yoy_pct := latest.fcf_ttm_yoy_pct
    fcf_margin_ttm_pct := latest.fcf_margin_ttm_pct
    cash := latest.cash
    debt := latest.debt
    net_debt := net_debt
    fcf_yield := fcf_yield
    net_debt_to_fcf_ttm := nd_fcf }

/-- Embeds `build_comps_snapshot` (lines 213-265): one row per entry of the
`ttm_latest` dict, in insertion order. -/
def build_comps_snapshot (ttm_latest : List (String × TTMLatest))
    (quotes : List QuoteRow) : List CompsRow :=
  ttm_latest.map (fun e => comps_row quotes e.1 e.2)

/-- Embeds the fields of `summarize_news_for_scoring` that the decision
reads: `neg_7d`, `shock_7d` and the 30-day tag counts. -/
structure NewsSummary where
  neg_7d : ℤ
  shock_7d : ℤ
  tag_counts_30d : List (String × ℤ)
deriving Repr, DecidableEq

/-- Embeds `tag_counts.get(t, 0)`. -/
def tag_count (m : List (String × ℤ)) (k : String) : ℤ :=
  ((m.find? (fun e => e.1 == k)).map (·.2)).getD 0

/-- Embeds the `peer_ranks` dict (lines 307-312). -/
structure PeerRanks where
  fcf_yield_pct_rank : Option ℚ
  revenue_ttm_yoy_pct_rank : Option ℚ
  fcf_ttm_yoy_pct_rank : Option ℚ
  fcf_margin_ttm_pct_rank : Option ℚ
deriving Repr, DecidableEq

/-- Embeds the rounded `bucket_scores` dict (line 464). -/
structure BucketScores where
  cash_level : ℤ
  valuation : ℤ
  growth : ℤ
  quality : ℤ
  balance_risk : ℤ
deriving Repr, DecidableEq

/-- Embeds `DecisionOutput` (lines 271-281), with the news summary and
sentiment-proxy score echoed as received. -/
structure DecisionOutput where
  ticker : String
  as_of : String
  score : ℤ
  rating : String
  red_flags : List String
  bucket_scores : BucketScores
  peer_ranks : PeerRanks
  news_summary : NewsSummary
  news_proxy : Option ℚ
deriving Repr, DecidableEq

/-- Embeds the four percentile-rank computations (lines 302-305): each rank
is taken against the full universe column of the comps frame, which
includes the focus row itself. -/
def peer_ranks_of (comps : List CompsRow) (r : CompsRow) : PeerRanks :=
  ⟨rank_percentile (comps.map (·.fcf_yield)) r.fcf_yield true,
   rank_percentile (comps.map (·.revenue_ttm_yoy_pct)) r.revenue_ttm_yoy_pct true,
   rank_percentile (comps.map (·.fcf_ttm_yoy_pct)) r.fcf_ttm_yoy_pct true,
   rank_percentile (comps.map (·.fcf_margin_ttm_pct)) r.fcf_margin_ttm_pct true⟩

/-- Embeds the scoring body of `compute_decision_with_peers_and_news`
(lines 293-479), applied once the focus row `r` has been found: the five
weighted buckets with their tiers, red flags in accumulation order, the
rounded composite score and the rating. -/
def decision_for (focus as_of : String) (comps : List CompsRow) (r : CompsRow)
    (news : NewsSummary) (proxy_score_7d : Option ℚ) : DecisionOutput :=
  let ranks := peer_ranks_of comps r
  let cash_pair : ℚ × List String :=
    match r.fcf_ttm with
    | none => (0, ["TTM FCF missing"])
    | some v =>
      if 12000000000 ≤ v then (25, [])
      else if 8000000000 ≤ v then (21, [])
      else if 4000000000 ≤ v then (15, [])
      else if 1000000000 ≤ v then (8, [])
      else (3, ["Low TTM FCF"])
  let val_flags : List String :=
    match r.fcf_yield with
    | none => ["FCF yield missing"]
    | some _ => []
  let val_points1 : ℚ :=
    match r.fcf_yield with
    | none => 0
    | some y =>
      if (0.08 : ℚ) ≤ y then 10
      else if (0.06 : ℚ) ≤ y then 8
      else if (0.04 : ℚ) ≤ y then 5
      else if (0.025 : ℚ) ≤ y then 3
      else 1
  let val_points2 : ℚ :=
    match ranks.fcf_yield_pct_rank with
    | none => 0
    | some rk => if 75 ≤ rk then 10 else if 50 ≤ rk then 7 else if 25 ≤ rk then 4 else 2
  let valuation := clamp (val_points1 + val_points2) 0 20
  let g1 : ℚ × List String :=
    match r.revenue_ttm_yoy_pct with
    | none => (0, [])
    | some v =>
      if 20 ≤ v then (6, [])
      else if 10 ≤ v then (4, [])
      else if 5 ≤ v then (2, [])
      else if v < 0 then (-3, ["TTM revenue declining YoY"])
      else (0, [])
  let g2 : ℚ × List String :=
    match r.fcf_ttm_yoy_pct with
    | none => (0, [])
    | some v =>
      if 40 ≤ v then (6, [])
      else if 15 ≤ v then (4, [])
      else if 5 ≤ v then (2, [])
      else if v < 0 then (-5, ["TTM FCF declining YoY"])
      else (0, [])
  let g3 : ℚ :=
    match ranks.revenue_ttm_yoy_pct_rank with
    | none => 0
    | some rk => if 75 ≤ rk then 4 else if 50 ≤ rk then 3 else if 25 ≤ rk then 2 else 1
  let g4 : ℚ :=
    match ranks.fcf_ttm_yoy_pct_rank with
    | none => 0
    | some rk => if 75 ≤ rk then 4 else if 50 ≤ rk then 3 else if 25 ≤ rk then 2 else 1
  let growth := clamp (g1.1 + g2.1 + g3 + g4) 0 20
  let q1 : ℚ :=
    match r.fcf_margin_ttm_pct with
    | none => 0
    | some m =>
      if 18 ≤ m then 9 else if 12 ≤ m then 7 else if 8 ≤ m then 5
      else if 4 ≤ m then 3 else 1
  let q2 : ℚ :=
    match ranks.fcf_margin_ttm_pct_rank with
    | none => 0
    | some rk => if 75 ≤ rk then 6 else if 50 ≤ rk then 4 else if 25 ≤ rk then 3 else 2
  let quality := clamp (q1 + q2) 0 15
  let nd_pair : ℚ × List String :=
    match r.net_debt_to_fcf_ttm with
    | none => (-2, [])
    | some v =>
      if 3 ≤ v then (-8, ["Net debt high vs TTM FCF"])
      else if (1.5 : ℚ) ≤ v then (-4, [])
      else (0, [])
  let b2 : ℚ :=
    if 6 ≤ news.neg_7d then -8
    else if 3 ≤ news.neg_7d then -5
    else if 1 ≤ news.neg_7d then -2
    else 0
  let b3 : ℚ :=
    if news.shock_7d ≤ -10 then -4 else if news.shock_7d ≤ -6 then -2 else 0
  let core_hits :=
    tag_count news.tag_counts_30d "LABOR" + tag_count news.tag_counts_30d "INSURANCE" +
      tag_count news.tag_counts_30d "REGULATORY"
  let core_pair : ℚ × List String :=
    if 6 ≤ core_hits then (-4, ["Frequent LABOR/INSURANCE/REGULATORY negatives (30d)"])
    else if 3 ≤ core_hits then (-2, [])
    else (0, [])
  let b5 : ℚ :=
    match proxy_score_7d with
    | none => 0
    | some p7 => if p7 ≤ 25 then -4 else if p7 ≤ 35 then -2 else if 70 ≤ p7 then 1 else 0
  let balance_risk := clamp (20 + nd_pair.1 + b2 + b3 + core_pair.1 + b5) 0 20
  let score :=
    pyRound (clamp (cash_pair.1 + valuation + growth + quality + balance_risk) 0 100)
  let rating := if 80 ≤ score then "BUY" else if 65 ≤ score then "HOLD" else "AVOID"
  let news_flags : List String :=
    if 3 ≤ news.neg_7d then
      ["News: " ++ toString news.neg_7d ++ " negative headlines in last 7d (shock " ++
        toString news.shock_7d ++ ")"]
    else []
  { ticker := focus
    as_of := as_of
    score := score
    rating := rating
    red_flags := cash_pair.2 ++ val_flags ++ g1.2 ++ g2.2 ++ nd_pair.2 ++
      core_pair.2 ++ news_flags
    bucket_scores := ⟨pyRound cash_pair.1, pyRound valuation, pyRound growth,
      pyRound quality, pyRound balance_risk⟩
    peer_ranks := ranks
    news_summary := news
    news_proxy := proxy_score_7d }

/-- Embeds the focus-row lookup of `compute_decision_with_peers_and_news`
(lines 285-291): tickers uppercased, first matching row. -/
def find_row (focus : String) (comps : List CompsRow) : Option CompsRow :=
  comps.find? (fun r => py_upper r.ticker == focus)

/-- Embeds `compute_decision_with_peers_and_news` (lines 284-479); the
missing-row branch raises `RuntimeError` with the message
`<focus> not found in comps snapshot`, modelled as `Except.error`. -/
def compute_decision_with_peers_and_news (focus as_of : String)
    (comps : List CompsRow) (news : NewsSummary) (proxy_score_7d : Option ℚ) :
    Except String DecisionOutput :=
  match find_row focus comps with
  | none => Except.error (focus ++ " not found in comps snapshot")
  | some r => Except.ok (decision_for focus as_of comps r news proxy_score_7d)

/-- Warning string appended by `main` when a ticker's fundamentals refresh
raises (run_uber_update.py line 549). -/
def fundamentals_warning (t e : String) : String :=
  "Fundamentals refresh failed for " ++ t ++ ": " ++ e

/-- Embeds the per-ticker fundamentals loop of `main` (lines 533-549): each
ticker is processed independently; a success contributes its latest TTM
row to the `ttm_latest` dict, a failure only appends a warning naming the
ticker.  The loop is written as structural recursion preserving order. -/
def fundamentals_phase (fetch : String → Except String TTMLatest) :
    List String → List (String × TTMLatest) × List String
  | [] => ([], [])
  | t :: rest =>
    let acc := fundamentals_phase fetch rest
    match fetch t with
    | .ok latest => ((t, latest) :: acc.1, acc.2)
    | .error e => (acc.1, fundamentals_warning t e :: acc.2)

/-- Embeds the comps assembly of `main` (lines 559-569): the snapshot is
built when any ticker succeeded; the on-disk comps cache is consulted only
when the snapshot is entirely empty, appending its warning.  A readable
cache is `some rows`; a missing (or unreadable) cache is `none`. -/
def comps_phase (ttm_latest : List (String × TTMLatest)) (quotes : List QuoteRow)
    (cache : Option (List CompsRow)) : List CompsRow × List String :=
  let comps := if ttm_latest = [] then [] else build_comps_snapshot ttm_latest quotes
  if comps = [] then
    match cache with
    | some rows => (rows, ["Using cached comps_snapshot.csv due to refresh failure."])
    | none => ([], [])
  else (comps, [])

/-- Composition of the fundamentals loop and the comps assembly of `main`,
returning the final comparable universe and the accumulated warnings. -/
def run_universe (univ : List String) (fetch : String → Except String TTMLatest)
    (quotes : List QuoteRow) (cache : Option (List CompsRow)) :
    List CompsRow × List String :=
  let fp := fundamentals_phase fetch univ
  let cp := comps_phase fp.1 quotes cache
  (cp.1, fp.2 ++ cp.2)

/-- Whether the fundamentals fetch for a ticker succeeds. -/
def fetch_ok (fetch : String → Except String TTMLatest) (t : String) : Bool :=
  match fetch t with
  | .ok _ => true
  | .error _ => false

/-- Concrete healthy TTM record used by the test scenarios. -/
def sampleTTM : TTMLatest :=
  ⟨some "2025-06-30", some 100000000000, some 10, some 15000000000, some 5,
   some 15, some 50000000000, some 60000000000⟩

/-- Five-ticker universe of the one-peer-failure scenario. -/
def univ5 : List String := ["AAA", "BBB", "CCC", "DDD", "EEE"]

/-- Fundamentals fetch that fails for the peer `BBB` only. -/
def fetch5 : String → Except String TTMLatest := fun t =>
  if t = "BBB" then Except.error "Quarterly endpoint returned empty for BBB"
  else Except.ok sampleTTM

/-- Healthy quotes for the five-ticker universe. -/
def quotes5 : List QuoteRow :=
  [⟨"AAA", some 100, some 1000000000000⟩, ⟨"BBB", some 50, some 500000000000⟩,
   ⟨"CCC", some 75, some 750000000000⟩, ⟨"DDD", some 20, some 200000000000⟩,
   ⟨"EEE", some 10, some 100000000000⟩]

lemma fundamentals_tickers (fetch : String → Except String TTMLatest)
    (u : List String) :
    (fundamentals_phase fetch u).1.map (·.1) = u.filter (fetch_ok fetch) := by
  induction u with
  | nil => rfl
  | cons t rest ih =>
    unfold fundamentals_phase
    rcases hf : fetch t with e | latest
    · simp [List.filter_cons, fetch_ok, hf, ih]
    · simp [List.filter_cons, fetch_ok, hf, ih]

lemma fundamentals_warn (fetch : String → Except String TTMLatest)
    (u : List String) (t e : String) (ht : t ∈ u) (he : fetch t = .error e) :
    fundamentals_warning t e ∈ (fundamentals_phase fetch u).2 := by
  induction u with
  | nil => cases ht
  | cons t2 rest ih =>
    unfold fundamentals_phase
    rcases List.mem_cons.mp ht with h | h
    · subst h
      rw [he]
      simp
    · rcases hf : fetch t2 with e2 | latest
      · simpa using Or.inr (ih h)
      · simpa using ih h

lemma snapshot_tickers (ttm_latest : List (String × TTMLatest))
    (quotes : List QuoteRow) :
    (build_comps_snapshot ttm_latest quotes).map (·.ticker) =
      ttm_latest.map (·.1) := by
  unfold build_comps_snapshot
  rw [List.map_map]
  rfl

lemma run_universe_build (univ : List String)
    (fetch : String → Except String TTMLatest) (quotes : List QuoteRow)
    (cache : Option (List CompsRow)) (hne : univ.filter (fetch_ok fetch) ≠ []) :
    (run_universe univ fetch quotes cache).1 =
      build_comps_snapshot (fundamentals_phase fetch univ).1 quotes ∧
    (run_universe univ fetch quotes cache).2 = (fundamentals_phase fetch univ).2 := by
  have htl : (fundamentals_phase fetch univ).1 ≠ [] := by
    intro h
    apply hne
    rw [← fundamentals_tickers, h]
    rfl
  have hb : build_comps_snapshot (fundamentals_phase fetch univ).1 quotes ≠ [] := by
    intro h
    apply htl
    have := congrArg List.length h
    simpa [build_comps_snapshot] using this
  simp only [run_universe, comps_phase]
  rw [if_neg htl, if_neg hb]
  exact ⟨rfl, by simp⟩

lemma run_universe_tickers (univ : List String)
    (fetch : String → Except String TTMLatest) (quotes : List QuoteRow)
    (cache : Option (List CompsRow)) (hne : univ.filter (fetch_ok fetch) ≠ []) :
    (run_universe univ fetch quotes cache).1.map (·.ticker) =
      univ.filter (fetch_ok fetch) := by
  rw [(run_universe_build univ fetch quotes cache hne).1, snapshot_tickers,
    fundamentals_tickers]

/-- C6 counterexample: fundamentals acquisition fails for exactly one peer
(`BBB`) of a five-ticker universe, everything else healthy; the final
comparable universe holds only 4 rows, not 5 — the failed peer is dropped,
not hydrated from cache or bootstrapped — while the warning naming the
ticker is present. -/
theorem peer_failure_five_universe_counterexample :
    (run_universe univ5 fetch5 quotes5 none).1.length = 4 ∧
    (run_universe univ5 fetch5 quotes5 none).1.length ≠ 5 ∧
    fundamentals_warning "BBB" "Quarterly endpoint returned empty for BBB" ∈
      (run_universe univ5 fetch5 quotes5 none).2 := by
  decide

/-- C6 amended: when a fundamentals fetch fails for a ticker, a warning
naming it is appended, but the final universe keeps exactly one row per
ticker whose fetch succeeded — the failed peer is dropped (the comps cache
is consulted only when the snapshot is entirely empty), so a one-of-five
failure leaves 4 rows. -/
theorem peer_failure_drops_row (univ : List String)
    (fetch : String → Except String TTMLatest) (quotes : List QuoteRow)
    (cache : Option (List CompsRow)) (t e : String)
    (ht : t ∈ univ) (he : fetch t = .error e)
    (hne : univ.filter (fetch_ok fetch) ≠ []) :
    (run_universe univ fetch quotes cache).1.map (·.ticker) =
      univ.filter (fetch_ok fetch) ∧
    fundamentals_warning t e ∈ (run_universe univ fetch quotes cache).2 := by
  refine ⟨run_universe_tickers univ fetch quotes cache hne, ?_⟩
  rw [(run_universe_build univ fetch quotes cache hne).2]
  exact fundamentals_warn fetch univ t e ht he

lemma run_universe_none_tickers (univ : List String)
    (fetch : String → Except String TTMLatest) (quotes : List QuoteRow) :
    ∀ r ∈ (run_universe univ fetch quotes none).1,
      r.ticker ∈ univ.filter (fetch_ok fetch) := by
  intro r hr
  by_cases hne : univ.filter (fetch_ok fetch) = []
  · exfalso
    have htl : (fundamentals_phase fetch univ).1 = [] := by
      have := fundamentals_tickers fetch univ
      rw [hne] at this
      exact List.map_eq_nil_iff.mp this
    simp only [run_universe, comps_phase, htl, if_pos rfl] at hr
    simp at hr
  · have hb := (run_universe_build univ fetch quotes none hne).1
    rw [hb] at hr
    have : r.ticker ∈ (build_comps_snapshot (fundamentals_phase fetch univ).1 quotes).map
        (·.ticker) := List.mem_map_of_mem _ hr
    rwa [snapshot_tickers, fundamentals_tickers] at this

/-- Concrete universe of the missing-focus scenario: the focus ticker is
`AAPL` and its fundamentals fetch fails while both peers succeed. -/
def univC1 : List String := ["AAPL", "LYFT", "DASH"]

/-- Fundamentals fetch of the missing-focus scenario. -/
def fetchC1 : String → Except String TTMLatest := fun t =>
  if t = "AAPL" then Except.error "Quarterly endpoint returned empty for AAPL"
  else Except.ok sampleTTM

/-- Quiet news summary used by the decision scenarios. -/
def news0 : NewsSummary := ⟨0, 0, []⟩

/-- C1 counterexample: every provider fails for the focus ticker `AAPL`
while its peers succeed; the comps snapshot then holds no row for `AAPL`
(nothing is synthesized) and the scoring step aborts with the not-found
error instead of receiving a bootstrapped row. -/
theorem missing_focus_counterexample :
    (∀ r ∈ (run_universe univC1 fetchC1 quotes5 none).1, r.ticker ≠ "AAPL") ∧
    compute_decision_with_peers_and_news "AAPL" "2025-10-12"
        (run_universe univC1 fetchC1 quotes5 none).1 news0 none =
      Except.error "AAPL not found in comps snapshot" := by
  refine ⟨by decide, ?_⟩
  rfl

/-- C1 amended: no minimal focus row is synthesized.  With no readable
comps cache, the final universe contains only tickers whose fundamentals
fetch succeeded, so when the focus ticker's acquisition failed (and no
other universe ticker uppercases to the focus symbol) the Scoring Engine
receives no row for it and raises the not-found error, aborting that run
instead of scoring a bootstrapped row. -/
theorem no_bootstrap_for_missing_focus (univ : List String)
    (fetch : String → Except String TTMLatest) (quotes : List QuoteRow)
    (focus as_of : String) (news : NewsSummary) (proxy : Option ℚ)
    (hfoc : ∀ t ∈ univ, py_upper t = focus → fetch_ok fetch t = false) :
    (∀ r ∈ (run_universe univ fetch quotes none).1, py_upper r.ticker ≠ focus) ∧
    compute_decision_with_peers_and_news focus as_of
        (run_universe univ fetch quotes none).1 news proxy =
      Except.error (focus ++ " not found in comps snapshot") := by
  have hrow : ∀ r ∈ (run_universe univ fetch quotes none).1, py_upper r.ticker ≠ focus := by
    intro r hr hup
    have hmem := run_universe_none_tickers univ fetch quotes r hr
    rw [List.mem_filter] at hmem
    have := hfoc r.ticker hmem.1 hup
    rw [this] at hmem
    exact absurd hmem.2 (by simp)
  refine ⟨hrow, ?_⟩
  have hfind : find_row focus (run_universe univ fetch quotes none).1 = none := by
    unfold find_row
    rw [List.find?_eq_none]
    intro r hr
    simpa using hrow r hr
  unfold compute_decision_with_peers_and_news
  rw [hfind]

/-- Witness for the amended C1 on the concrete missing-focus scenario. -/
theorem no_bootstrap_for_missing_focus_witness :
    (∀ r ∈ (run_universe univC1 fetchC1 quotes5 none).1,
      py_upper r.ticker ≠ "AAPL") ∧
    compute_decision_with_peers_and_news "AAPL" "2025-09-01"
        (run_universe univC1 fetchC1 quotes5 none).1 news0 (some 50) =
      Except.error ("AAPL" ++ " not found in comps snapshot") :=
  no_bootstrap_for_missing_focus univC1 fetchC1 quotes5 "AAPL" "2025-09-01"
    news0 (some 50) (by decide)

/-- Witness for the amended C6 on the concrete five-ticker scenario. -/
theorem peer_failure_drops_row_witness :
    (run_universe univ5 fetch5 quotes5 none).1.map (·.ticker) =
      univ5.filter (fetch_ok fetch5) ∧
    fundamentals_warning "BBB" "Quarterly endpoint returned empty for BBB" ∈
      (run_universe univ5 fetch5 quotes5 none).2 :=
  peer_failure_drops_row univ5 fetch5 quotes5 none "BBB"
    "Quarterly endpoint returned empty for BBB" (by decide) rfl (by decide)

lemma rank_ge_of_mem (series : List (Option ℚ)) (v : ℚ) (hmem : some v ∈ series) :
    ∃ rk : ℚ, rank_percentile series (some v) true = some rk ∧
      100 / ((dropna series).length : ℚ) ≤ rk ∧ 0 < rk := by
  have hv : v ∈ dropna series := by
    unfold dropna
    exact List.mem_filterMap.mpr ⟨some v, hmem, rfl⟩
  have hne : dropna series ≠ [] := fun h => by simp [h] at hv
  have hlen : 0 < (dropna series).length := List.length_pos.mpr hne
  have hcount : 1 ≤ ((dropna series).filter (fun y => y ≤ v)).length := by
    have hmf : v ∈ (dropna series).filter (fun y => y ≤ v) :=
      List.mem_filter.mpr ⟨hv, by simp⟩
    exact List.length_pos.mpr (fun h => by simp [h] at hmf)
  have h := (rank_percentile_spec series (some v) true).2 v rfl hne
  rw [if_pos rfl] at h
  have hcq : (1 : ℚ) ≤ (((dropna series).filter (fun y => y ≤ v)).length : ℚ) := by
    exact_mod_cast hcount
  have hnq : (0 : ℚ) < ((dropna series).length : ℚ) := by
    exact_mod_cast hlen
  set c : ℚ := (((dropna series).filter (fun y => y ≤ v)).length : ℚ)
  set n : ℚ := ((dropna series).length : ℚ)
  refine ⟨c / n * 100, h, ?_, ?_⟩
  · rw [div_mul_eq_mul_div, div_le_div_iff₀ hnq hnq]
    nlinarith
  · have : 0 < c / n := div_pos (by linarith) hnq
    nlinarith

/-- C10: the percentile ranks in the decision are computed over the whole
universe column, which contains the focus row's own value, so a non-null
focus metric always ranks at least `100 / N` (N the count of non-null
column values) and the focus rank is never 0 and never null; stated for
the FCF-yield rank of the decision output. -/
theorem focus_rank_never_null (focus as_of : String) (comps : List CompsRow)
    (news : NewsSummary) (proxy : Option ℚ) (r : CompsRow) (v : ℚ)
    (hfind : find_row focus comps = some r) (hv : r.fcf_yield = some v) :
    ∃ d rk, compute_decision_with_peers_and_news focus as_of comps news proxy =
        Except.ok d ∧
      d.peer_ranks.fcf_yield_pct_rank = some rk ∧
      100 / ((dropna (comps.map (·.fcf_yield))).length : ℚ) ≤ rk ∧ 0 < rk := by
  have hrmem : r ∈ comps := List.mem_of_find?_eq_some hfind
  have hmem : some v ∈ comps.map (·.fcf_yield) := by
    rw [← hv]
    exact List.mem_map_of_mem _ hrmem
  obtain ⟨rk, hrk, h1, h2⟩ := rank_ge_of_mem (comps.map (·.fcf_yield)) v hmem
  refine ⟨decision_for focus as_of comps r news proxy, rk, ?_, ?_, h1, h2⟩
  · unfold compute_decision_with_peers_and_news
    rw [hfind]
  · show rank_percentile (comps.map (·.fcf_yield)) r.fcf_yield true = some rk
    rw [hv]
    exact hrk

/-- Concrete focus row for the C10 witness. -/
def rowA : CompsRow :=
  ⟨"AAPL", some 100, some 2000000000000, some "2025-06-30", some 90000000000,
   some 8, some 12000000000, some 6, some 14, some 30000000000,
   some 40000000000, some 10000000000, some 5, some 1⟩

/-- Concrete peer row for the C10 witness. -/
def rowB : CompsRow :=
  ⟨"MSFT", some 200, some 3000000000000, some "2025-06-30", some 95000000000,
   some 9, some 24000000000, some 7, some 20, some 35000000000,
   some 45000000000, some 10000000000, some 8, some 1⟩

/-- Witness for C10 on a concrete two-row universe where the focus row has
the lower FCF yield. -/
theorem focus_rank_never_null_witness :
    ∃ d rk,
      compute_decision_with_peers_and_news "AAPL" "2025-10-12" [rowA, rowB]
          news0 none =
        Except.ok d ∧
      d.peer_ranks.fcf_yield_pct_rank = some rk ∧
      100 / ((dropna ([rowA, rowB].map (·.fcf_yield))).length : ℚ) ≤ rk ∧
      0 < rk :=
  focus_rank_never_null "AAPL" "2025-10-12" [rowA, rowB] news0 none rowA 5
    (by decide) rfl

lemma pyRound_bounds (x : ℚ) : ⌊x⌋ ≤ pyRound x ∧ pyRound x ≤ ⌊x⌋ + 1 := by
  simp only [pyRound]
  split_ifs <;> omega

lemma pyRound_mono {x y : ℚ} (h : x ≤ y) : pyRound x ≤ pyRound y := by
  rcases lt_or_le ⌊x⌋ ⌊y⌋ with hf | hf
  · have h1 := (pyRound_bounds x).2
    have h2 := (pyRound_bounds y).1
    omega
  · have hfe : ⌊x⌋ = ⌊y⌋ := le_antisymm (Int.floor_le_floor h) hf
    have hr : x - (⌊y⌋ : ℚ) ≤ y - (⌊y⌋ : ℚ) := by linarith
    simp only [pyRound]
    rw [hfe]
    split_ifs <;> first | omega | linarith

end Uber

namespace MC

open Uber (pyRound)

/-- Keys of the top-level JSON object `out` written by
`build_montecarlo.main` (build_montecarlo.py lines 137-167). -/
def out_keys : List String :=
  ["ticker", "generated_utc", "method", "inputs", "p10", "p50", "p90",
   "prob_down_20pct", "prob_up_20pct", "source", "results"]

/-- Keys of the nested `out["results"]` object (lines 154-166). -/
def results_keys : List String :=
  ["fallback_used", "fallback_reason", "confidence_grade", "confidence_reason",
   "cone_source", "price_source", "p10", "p50", "p90", "prob_down_20pct",
   "prob_up_20pct"]

/-- Embeds the percentile index of `q` (lines 123-126):
`int(round((pct/100)*(len-1)))` clamped into `[0, len-1]`. -/
def q_index (len : ℕ) (pct : ℚ) : ℕ :=
  let idx : ℤ := pyRound (pct / 100 * ((len : ℚ) - 1))
  (max 0 (min ((len : ℤ) - 1) idx)).toNat

/-- Fields computed by the sampling core of `build_montecarlo.main`. -/
structure McOut where
  sims : List ℚ
  p10 : ℚ
  p50 : ℚ
  p90 : ℚ
  prob_down_20pct : Option ℚ
  prob_up_20pct : Option ℚ
deriving Repr, DecidableEq

/-- Embeds the sampling core of `build_montecarlo.main` (lines 116-135) on
a resolved cone, with the seeded PRNG and the float `random.triangular`
transform abstracted: `rng seed i` is the i-th uniform variate the PRNG
yields after `random.seed(seed)` and `tri low high mode u` is the
triangular transform applied to it.  As in the source,
`a = min(bear, base, bull)`, `b = max(bear, base, bull)`, the mode is
`base`, the samples are sorted in place before `q` indexes them, and the
tail probabilities are computed only for a non-null non-zero price. -/
def mc_run (rng : ℕ → ℕ → ℚ) (tri : ℚ → ℚ → ℚ → ℚ → ℚ)
    (bear base bull : ℚ) (seed n : ℕ) (price : Option ℚ) : McOut :=
  let a := min bear (min base bull)
  let b := max bear (max base bull)
  let c := base
  let sims := (List.range n).map (fun i => tri a b c (rng seed i))
  let sorted := sims.insertionSort (· ≤ ·)
  let m := sorted.length
  let p10 := sorted.getD (q_index m 10) 0
  let p50 := sorted.getD (q_index m 50) 0
  let p90 := sorted.getD (q_index m 90) 0
  let probs : Option ℚ × Option ℚ :=
    match price with
    | none => (none, none)
    | some p =>
      if p = 0 then (none, none)
      else
        (some (((sorted.filter (fun x => x ≤ p * (0.8 : ℚ))).length : ℚ) / (m : ℚ)),
         some (((sorted.filter (fun x => p * (1.2 : ℚ) ≤ x)).length : ℚ) / (m : ℚ)))
  { sims := sims
    p10 := p10
    p50 := p50
    p90 := p90
    prob_down_20pct := probs.1
    prob_up_20pct := probs.2 }

/-- C8: the sampler output depends only on the resolved cone, the seed and
the sample count — two invocations with identical `(cone, seed, n)` yield
identical p10/p50/p90 whatever the other inputs (the current price feeds
only the tail probabilities) — and the samples are exactly the triangular
transform at `low = min(bear,base,bull)`, `high = max(bear,base,bull)`,
`mode = base` applied to the seed-determined uniform stream. -/
theorem mc_deterministic (rng : ℕ → ℕ → ℚ) (tri : ℚ → ℚ → ℚ → ℚ → ℚ)
    (bear base bull : ℚ) (seed n : ℕ) (price1 price2 : Option ℚ) :
    (mc_run rng tri bear base bull seed n price1).p10 =
      (mc_run rng tri bear base bull seed n price2).p10 ∧
    (mc_run rng tri bear base bull seed n price1).p50 =
      (mc_run rng tri bear base bull seed n price2).p50 ∧
    (mc_run rng tri bear base bull seed n price1).p90 =
      (mc_run rng tri bear base bull seed n price2).p90 ∧
    (mc_run rng tri bear base bull seed n price1).sims =
      (List.range n).map (fun i =>
        tri (min bear (min base bull)) (max bear (max base bull)) base
          (rng seed i)) :=
  ⟨rfl, rfl, rfl, rfl⟩

/-- C9 counterexample: neither the top-level result object nor its nested
`results` object of the cone-based sampler carries a `mean` or a `stdev`
key — the claimed mean and population standard deviation are absent from
its output. -/
theorem mc_mean_stdev_missing_counterexample :
    "mean" ∉ results_keys ∧ "stdev" ∉ results_keys ∧
    "mean" ∉ out_keys ∧ "stdev" ∉ out_keys := by
  decide

lemma q_index_lt (len : ℕ) (pct : ℚ) (hlen : 1 ≤ len) : q_index len pct < len := by
  simp only [q_index]
  omega

lemma q_index_mono (len : ℕ) {p1 p2 : ℚ} (hp : p1 ≤ p2) (hlen : 1 ≤ len) :
    q_index len p1 ≤ q_index len p2 := by
  have hl : (0 : ℚ) ≤ (len : ℚ) - 1 := by
    have : (1 : ℚ) ≤ (len : ℚ) := by exact_mod_cast hlen
    linarith
  have harg : p1 / 100 * ((len : ℚ) - 1) ≤ p2 / 100 * ((len : ℚ) - 1) :=
    mul_le_mul_of_nonneg_right (by linarith) hl
  have := Uber.pyRound_mono harg
  simp only [q_index]
  omega

/-- C9 amended: the cone-based sampler reports `p10`/`p50`/`p90` as
index-interpolated order statistics of the drawn samples — each reported
percentile is one of the samples and they are mutually ordered — alongside
the tail probabilities and fallback metadata, but it reports no mean and
no standard deviation (those fields exist only in the DCF sampler
`run_mc` of montecarlo_dcf.py). -/
theorem mc_percentiles_order_stats (rng : ℕ → ℕ → ℚ)
    (tri : ℚ → ℚ → ℚ → ℚ → ℚ) (bear base bull : ℚ) (seed n : ℕ)
    (price : Option ℚ) (hn : 1 ≤ n) :
    ((mc_run rng tri bear base bull seed n price).p10 ∈
        (mc_run rng tri bear base bull seed n price).sims ∧
      (mc_run rng tri bear base bull seed n price).p50 ∈
        (mc_run rng tri bear base bull seed n price).sims ∧
      (mc_run rng tri bear base bull seed n price).p90 ∈
        (mc_run rng tri bear base bull seed n price).sims) ∧
    ((mc_run rng tri bear base bull seed n price).p10 ≤
        (mc_run rng tri bear base bull seed n price).p50 ∧
      (mc_run rng tri bear base bull seed n price).p50 ≤
        (mc_run rng tri bear base bull seed n price).p90) ∧
    ("p10" ∈ results_keys ∧ "p50" ∈ results_keys ∧ "p90" ∈ results_keys ∧
      "mean" ∉ results_keys ∧ "stdev" ∉ results_keys) := by
  set sims := (List.range n).map (fun i =>
    tri (min bear (min base bull)) (max bear (max base bull)) base (rng seed i))
    with hsims
  set sorted := sims.insertionSort (· ≤ ·) with hsorted
  have hperm : List.Perm sorted sims := sims.perm_insertionSort (· ≤ ·)
  have hsort : sorted.Sorted (· ≤ ·) := List.sorted_insertionSort (· ≤ ·) sims
  have hm : sorted.length = n := by
    rw [hperm.length_eq, hsims]
    simp
  have hmem : ∀ pct : ℚ, sorted.getD (q_index sorted.length pct) 0 ∈ sims := by
    intro pct
    have hlt : q_index sorted.length pct < sorted.length :=
      q_index_lt sorted.length pct (by omega)
    rw [List.getD_eq_getElem?_getD, List.getElem?_eq_getElem hlt]
    exact hperm.mem_iff.mp (sorted.get_mem _ hlt)
  have horder : ∀ pct1 pct2 : ℚ, pct1 ≤ pct2 →
      sorted.getD (q_index sorted.length pct1) 0 ≤
        sorted.getD (q_index sorted.length pct2) 0 := by
    intro pct1 pct2 hp
    have hlt1 : q_index sorted.length pct1 < sorted.length :=
      q_index_lt sorted.length pct1 (by omega)
    have hlt2 : q_index sorted.length pct2 < sorted.length :=
      q_index_lt sorted.length pct2 (by omega)
    rw [List.getD_eq_getElem?_getD, List.getElem?_eq_getElem hlt1,
      List.getD_eq_getElem?_getD, List.getElem?_eq_getElem hlt2]
    exact hsort.rel_get_of_le (q_index_mono sorted.length hp (by omega))
  refine ⟨⟨hmem 10, hmem 50, hmem 90⟩,
    ⟨horder 10 50 (by norm_num), horder 50 90 (by norm_num)⟩, by decide⟩

/-- Witness for the amended C9 at a concrete run: five samples from a
simple abstract stream and transform. -/
theorem mc_percentiles_order_stats_witness :
    ((mc_run (fun _ i => (i : ℚ)) (fun lo _ _ u => lo + u) 80 100 135 7 5
        (some 100)).p10 ∈
      (mc_run (fun _ i => (i : ℚ)) (fun lo _ _ u => lo + u) 80 100 135 7 5
        (some 100)).sims ∧
      (mc_run (fun _ i => (i : ℚ)) (fun lo _ _ u => lo + u) 80 100 135 7 5
        (some 100)).p50 ∈
      (mc_run (fun _ i => (i : ℚ)) (fun lo _ _ u => lo + u) 80 100 135 7 5
        (some 100)).sims ∧
      (mc_run (fun _ i => (i : ℚ)) (fun lo _ _ u => lo + u) 80 100 135 7 5
        (some 100)).p90 ∈
      (mc_run (fun _ i => (i : ℚ)) (fun lo _ _ u => lo + u) 80 100 135 7 5
        (some 100)).sims) ∧
    ((mc_run (fun _ i => (i : ℚ)) (fun lo _ _ u => lo + u) 80 100 135 7 5
        (some 100)).p10 ≤
      (mc_run (fun _ i => (i : ℚ)) (fun lo _ _ u => lo + u) 80 100 135 7 5
        (some 100)).p50 ∧
      (mc_run (fun _ i => (i : ℚ)) (fun lo _ _ u => lo + u) 80 100 135 7 5
        (some 100)).p50 ≤
      (mc_run (fun _ i => (i : ℚ)) (fun lo _ _ u => lo + u) 80 100 135 7 5
        (some 100)).p90) ∧
    ("p10" ∈ results_keys ∧ "p50" ∈ results_keys ∧ "p90" ∈ results_keys ∧
      "mean" ∉ results_keys ∧ "stdev" ∉ results_keys) :=
  mc_percentiles_order_stats (fun _ i => (i : ℚ)) (fun lo _ _ u => lo + u)
    80 100 135 7 5 (some 100) (by decide)

end MC
